import Mathlib

/-!
# Verification of the automaton telemetry system

Shallow embedding of the ingestion / query / aggregation / live-view code of
this repository (`log_collector.py`, `graph_viewer.py`) together with proofs
of the specified properties.  Machine floats are modelled as rationals;
instants are rationals measured in seconds.
-/

/-- Python `int(x)` applied to a float: truncation toward zero. -/
def pytrunc (q : ℚ) : ℤ :=
  if 0 ≤ q then ⌊q⌋ else ⌈q⌉

/-- `bin_index = int(time_point / seconds_per_cell)` from
`aggregate_data_median` (graph_viewer.py line 360). -/
def binIndex (cell t : ℚ) : ℤ :=
  pytrunc (t / cell)

/-- The median reducer applied to one bucket's values
(graph_viewer.py lines 369-375): sort the values; an even count averages
the two middle values, an odd count takes the middle value. -/
def medianOfBin (l : List ℚ) : ℚ :=
  let s := List.insertionSort (· ≤ ·) l
  let n := s.length
  let mid := n / 2
  if n % 2 = 0 then (s.getD (mid - 1) 0 + s.getD mid 0) / 2
  else s.getD mid 0

/-- Modelled from the spec: the **mean** reducer (arithmetic average of a
bucket's values), required by §4.4 for the view generations of this system
that are not under `src/` (the file under `src/` only implements the median
reducer). -/
def meanOfBin (l : List ℚ) : ℚ :=
  l.sum / l.length

/-- The distinct bin indices populated by the points (a point contributes
only when its value is present), in first-occurrence order — the key set of
the Python dict `bins` built in graph_viewer.py lines 356-363. -/
def binnedIndices (pts : List (ℚ × Option ℚ)) (cell : ℚ) : List ℤ :=
  (pts.filterMap (fun p => p.2.map (fun _ => binIndex cell p.1))).dedup

/-- `sorted(bins.items())` iterates the bin indices in ascending order
(graph_viewer.py line 366). -/
def sortedBinIndices (pts : List (ℚ × Option ℚ)) (cell : ℚ) : List ℤ :=
  List.insertionSort (· ≤ ·) (binnedIndices pts cell)

/-- The values collected into bin `i`, in input order — the list
`bins[bin_index]` of graph_viewer.py lines 361-363. -/
def binValues (pts : List (ℚ × Option ℚ)) (cell : ℚ) (i : ℤ) : List ℚ :=
  pts.filterMap (fun p => p.2.bind (fun v => if binIndex cell p.1 = i then some v else none))

/-- `aggregate_data_median` (graph_viewer.py lines 346-378).  Guard clause:
empty `times`, empty `values` or a zero plot width yield `([], [])`.
Otherwise each point with a present value is assigned to bucket
`int(t / cell)` with `cell = time_window_seconds / plot_width`, and the
buckets are emitted in ascending index order as
`(bin_index * cell, median of the bin)`.  (The source's
`if not bin_values: continue` never fires: a bin is created only together
with its first appended value.) -/
def aggregate_data_median (times : List ℚ) (values : List (Option ℚ))
    (time_window_seconds : ℚ) (plot_width : ℕ) : List ℚ × List ℚ :=
  if times = [] ∨ values = [] ∨ plot_width = 0 then ([], [])
  else
    let cell := time_window_seconds / plot_width
    let pts := times.zip values
    let idxs := sortedBinIndices pts cell
    (idxs.map (fun i : ℤ => (i : ℚ) * cell),
     idxs.map (fun i => medianOfBin (binValues pts cell i)))

/-- Modelled from the spec: `aggregate` with the **mean** reducer (§4.4) —
identical binning to `aggregate_data_median`, with the arithmetic average in
place of the median. -/
def aggregate_data_mean (times : List ℚ) (values : List (Option ℚ))
    (time_window_seconds : ℚ) (plot_width : ℕ) : List ℚ × List ℚ :=
  if times = [] ∨ values = [] ∨ plot_width = 0 then ([], [])
  else
    let cell := time_window_seconds / plot_width
    let pts := times.zip values
    let idxs := sortedBinIndices pts cell
    (idxs.map (fun i : ℤ => (i : ℚ) * cell),
     idxs.map (fun i => meanOfBin (binValues pts cell i)))

/-! ## Store records and stream readers (log_collector.py) -/

/-- A JSON value stored in a record's payload: the payloads of this system
hold numeric and string fields (spec §6). -/
inductive JVal
  | num (q : ℚ)
  | str (s : String)
deriving DecidableEq

/-- Python `round(x, 2)` / half-to-even rounding to `d` decimal digits,
on the rational model of floats. -/
def roundHalfEven (q : ℚ) : ℤ :=
  let f := ⌊q⌋
  let r := q - f
  if r < 1 / 2 then f
  else if 1 / 2 < r then f + 1
  else if f % 2 = 0 then f else f + 1

/-- `round(x, 2)` used on the DHT11 readings (log_collector.py line 65). -/
def round2 (q : ℚ) : ℚ :=
  roundHalfEven (q * 100) / 100

/-- `f"{x:.1f}"`, the value echoed on the serial line
(log_collector.py line 76), modelled by its numeric value. -/
def round1 (q : ℚ) : ℚ :=
  roundHalfEven (q * 10) / 10

/-- The payload column of a stored row: the raw serial line for the serial
reader, the rounded `(temperature, humidity)` pair for the GPIO reader. -/
inductive Payload
  | serialLine (s : String)
  | gpio (temperature humidity : ℚ)
deriving DecidableEq

/-- One row of the `logs` table, timestamp abstracted to seconds (ℚ). -/
structure StoredRecord where
  rtype : String
  payload : Payload
deriving DecidableEq

/-- One iteration's input to the serial reader: the decoded, stripped line
text together with whether `json.loads` accepts it (JSON parsing is an
external library call, abstracted to its verdict). -/
structure SerialLine where
  text : String
  parses : Bool
deriving DecidableEq

/-- One iteration of `read_serial` (log_collector.py lines 91-113): an empty
line is skipped, a line that parses as JSON is stored with type
`"Série JSON"`, a non-JSON line is dropped (reported, not fatal). -/
def read_serial_step (l : SerialLine) : Option StoredRecord :=
  if l.text = "" then none
  else if l.parses then some ⟨"Série JSON", .serialLine l.text⟩
  else none

/-- One iteration's outcome of polling the DHT11: a read that raises
(RuntimeError), or a read delivering optional temperature and humidity. -/
inductive DhtRead
  | fail
  | ok (temperature humidity : Option ℚ)
deriving DecidableEq

/-- One iteration of `read_dht11` (log_collector.py lines 56-84): when both
readings are present, one record of type `"GPIO JSON"` is stored and the
temperature is echoed over the serial line (every time — there is no
last-sent-value check in this file); otherwise nothing happens.  Returns
(stored record?, echoed value?). -/
def read_dht11_step : DhtRead → Option StoredRecord × Option ℚ
  | .fail => (none, none)
  | .ok (some t) (some h) =>
      (some ⟨"GPIO JSON", .gpio (round2 t) (round2 h)⟩, some (round1 t))
  | .ok _ _ => (none, none)

/-- The sequence of values echoed on the serial line by `read_dht11` over a
sequence of poll outcomes. -/
def dht_echoes (reads : List DhtRead) : List ℚ :=
  reads.filterMap (fun r => (read_dht11_step r).2)

/-- The records `read_dht11` stores over a sequence of poll outcomes. -/
def dht_records (reads : List DhtRead) : List StoredRecord :=
  reads.filterMap (fun r => (read_dht11_step r).1)

/-! ## Range query engine (`read_logs_from_db`, graph_viewer.py 463-513) -/

/-- One fetched row: timestamp (seconds), type and decoded JSON fields. -/
structure Row where
  time : ℚ
  rtype : String
  fields : List (String × JVal)
deriving DecidableEq

/-- `isinstance(v, (int, float))` (graph_viewer.py lines 487, 492). -/
def isNum : JVal → Bool
  | .num _ => true
  | .str _ => false

/-- `data.get(key)` on a decoded payload (graph_viewer.py lines 499, 502):
the numeric value when the field is present and numeric, `none` when absent.
A present non-numeric field is also modelled as `none` (such a value is not
a plot point). -/
def fieldValue (fields : List (String × JVal)) (key : String) : Option ℚ :=
  match fields.lookup key with
  | some (.num q) => some q
  | _ => none

/-- The numeric field names discovered across a list of rows, in canonical
(sorted) order — the sets `serial_keys` / `gpio_keys` of graph_viewer.py
lines 477, 486-493 (a Python set is unordered; the canonical serialization
used for fingerprinting sorts keys, so the model keeps them sorted). -/
def numericKeys (rows : List Row) : List String :=
  List.insertionSort (· ≤ ·)
    ((rows.flatMap (fun r => (r.fields.filter (fun f => isNum f.2)).map (fun f => f.1))).dedup)

/-- The parsed result of a successful query
(graph_viewer.py lines 505-510). -/
structure ParsedData where
  serial_times : List ℚ
  serial_data : List (String × List (Option ℚ))
  gpio_times : List ℚ
  gpio_data : List (String × List (Option ℚ))
deriving DecidableEq

/-- The row-partitioning and series-extraction loop of `read_logs_from_db`
(graph_viewer.py lines 476-510): rows of type `"Série JSON"` feed the serial
series, rows of type `"GPIO JSON"` feed the GPIO series, any other type is
ignored; offsets are `timestamp - window_start` in seconds. -/
def parseRows (window_start : ℚ) (rows : List Row) : ParsedData :=
  let serialRows := rows.filter (fun r => r.rtype = "Série JSON")
  let gpioRows := rows.filter (fun r => r.rtype = "GPIO JSON")
  { serial_times := serialRows.map (fun r => r.time - window_start)
    serial_data := (numericKeys serialRows).map
      (fun k => (k, serialRows.map (fun r => fieldValue r.fields k)))
    gpio_times := gpioRows.map (fun r => r.time - window_start)
    gpio_data := (numericKeys gpioRows).map
      (fun k => (k, gpioRows.map (fun r => fieldValue r.fields k))) }

/-- `read_logs_from_db` (graph_viewer.py lines 463-513): the store access
either yields the rows of the window (ordered by timestamp) or fails with a
`sqlite3.Error`; a failure is caught and turned into the explicit absence
`none` — the function never propagates the exception. -/
def read_logs_from_db (window_start : ℚ) (store : Except String (List Row)) :
    Option ParsedData :=
  match store with
  | .ok rows => some (parseRows window_start rows)
  | .error _ => none

/-! ## Live-view controller (graph_viewer.py 394-442) -/

/-- Whether `update_graph_panes` (graph_viewer.py lines 300-317) shows the
"Aucune donnée disponible" (no data available) title: it does iff the data
is absent or both time lists are empty. -/
def rendersNoData : Option ParsedData → Bool
  | none => true
  | some p => p.serial_times = [] && p.gpio_times = []

/-- The controller state relevant to query dispatch and redraws:
`parsed_data_from_worker`, `data_hash` (the md5 of the canonically
serialized result, modelled as the canonical result itself, `none` standing
for the initial empty hash), whether `read_worker` is set and unfinished,
what `update_displays` last rendered (`none` = nothing rendered yet), and a
ghost counter of queries actually in flight. -/
structure CtrlState where
  parsedData : Option ParsedData
  dataHash : Option ParsedData
  workerRunning : Bool
  displayed : Option (Option ParsedData)
  inflight : ℕ
deriving DecidableEq

/-- `run_worker_safely` (graph_viewer.py lines 420-427): if a worker exists
and is not finished, the launch request is a no-op; otherwise a new query
worker is started. -/
def run_worker_safely (s : CtrlState) : CtrlState :=
  if s.workerRunning then s
  else { s with workerRunning := true, inflight := s.inflight + 1 }

/-- A completion event of the query worker: `success r` with
`r = read_logs_from_db ...` (`none` after a caught store failure), or
`error` when the worker raised. -/
inductive WorkerEvent
  | success (r : Option ParsedData)
  | error
deriving DecidableEq

/-- `on_worker_state_changed` (graph_viewer.py lines 429-442) together with
the `watch_data_hash` reaction (lines 394-397): an event from a worker other
than the current one is ignored; on success with a truthy result the data
and its hash are stored and, when the hash changed, `update_displays`
re-renders; on success with `None` (store failure) and on worker error only
the worker slot is cleared. -/
def on_worker_state_changed (s : CtrlState) (e : WorkerEvent) : CtrlState :=
  if s.workerRunning then
    match e with
    | .success (some d) =>
        let newHash : Option ParsedData := some d
        { parsedData := some d
          dataHash := newHash
          workerRunning := false
          displayed := if newHash ≠ s.dataHash then some (some d) else s.displayed
          inflight := s.inflight - 1 }
    | .success none =>
        { s with workerRunning := false, inflight := s.inflight - 1 }
    | .error =>
        { s with workerRunning := false, inflight := s.inflight - 1 }
  else s

/-- An event of the controller's serialized event loop: a request to launch
a query (navigation command or timer tick) or a worker completion. -/
inductive CtrlEv
  | launch
  | worker (e : WorkerEvent)
deriving DecidableEq

/-- One step of the controller's event loop. -/
def ctrl_step (s : CtrlState) : CtrlEv → CtrlState
  | .launch => run_worker_safely s
  | .worker e => on_worker_state_changed s e

/-- The controller's initial state (no data, empty hash, no worker). -/
def ctrl_init : CtrlState :=
  { parsedData := none, dataHash := none, workerRunning := false
    displayed := none, inflight := 0 }

/-- The controller state after a sequence of events from startup. -/
def ctrl_run (es : List CtrlEv) : CtrlState :=
  es.foldl ctrl_step ctrl_init

/-! ## Navigation state machine (graph_viewer.py 531-576) -/

/-- The navigation fields of the view state: `current_end_time` (seconds)
and `follow_mode`. -/
structure NavState where
  windowEnd : ℚ
  follow : Bool
deriving DecidableEq

/-- `action_snap_to_now` (graph_viewer.py lines 531-535): pin the window end
to "now" and enter follow mode. -/
def action_snap_to_now (now : ℚ) : NavState :=
  { windowEnd := now, follow := true }

/-- `action_move_forward` (graph_viewer.py lines 566-576): step the window
end forward by half a window; if that lands on or past "now", snap to now
instead, otherwise leave follow mode off at the stepped position. -/
def action_move_forward (now time_window_seconds : ℚ) (s : NavState) : NavState :=
  let newEnd := s.windowEnd + time_window_seconds / 2
  if now ≤ newEnd then action_snap_to_now now
  else { windowEnd := newEnd, follow := false }

/-! ## Theorems -/

/-- C7: for every paused state in which a half-window forward step would
move `window_end` to or past "now", `action_move_forward` produces the
snap-to-now result (`window_end = now`, `follow = true`); otherwise it sets
`window_end` forward by half a window and leaves `follow` false. -/
theorem forward_step_clamp (now w e : ℚ) (f : Bool) :
    (now ≤ e + w / 2 → action_move_forward now w ⟨e, f⟩ = ⟨now, true⟩) ∧
    (e + w / 2 < now → action_move_forward now w ⟨e, f⟩ = ⟨e + w / 2, false⟩) := by
  constructor
  · intro h
    simp [action_move_forward, action_snap_to_now, h]
  · intro h
    simp [action_move_forward, not_le.mpr h]

/-- Witness for `forward_step_clamp` at concrete inputs. -/
theorem forward_step_clamp_witness :
    action_move_forward 5 2 ⟨10, false⟩ = ⟨5, true⟩ ∧
    action_move_forward 100 2 ⟨10, false⟩ = ⟨11, false⟩ := by
  constructor
  · exact (forward_step_clamp 5 2 10 false).1 (by norm_num)
  · have h := (forward_step_clamp 100 2 10 false).2 (by norm_num)
    norm_num at h
    exact h

/-- C4 counterexample: two consecutive successful DHT11 reads of the same
temperature make `read_dht11` write the same value on the serial line twice
in a row — the file has no changed-value guard. -/
theorem echo_dedup_counterexample :
    dht_echoes [.ok (some 25) (some 50), .ok (some 25) (some 50)] = [25, 25] ∧
    ¬ List.Chain' (· ≠ ·)
        (dht_echoes [.ok (some 25) (some 50), .ok (some 25) (some 50)]) := by
  have h25 : round1 25 = 25 := by
    norm_num [round1, roundHalfEven]
  constructor
  · simp [dht_echoes, read_dht11_step, h25]
  · intro hch
    rw [show dht_echoes [.ok (some 25) (some 50), .ok (some 25) (some 50)] = [25, 25] by
      simp [dht_echoes, read_dht11_step, h25]] at hch
    simp [List.chain'_cons] at hch

/-- C4 amended: `read_dht11` echoes the temperature after **every**
successful sensor read — exactly one serial write per stored record,
including repeats of an unchanged value. -/
theorem echo_once_per_successful_read (reads : List DhtRead) :
    (dht_echoes reads).length = (dht_records reads).length := by
  induction reads with
  | nil => rfl
  | cons r rs ih =>
    cases r with
    | fail => simpa [dht_echoes, dht_records, read_dht11_step] using ih
    | ok t h =>
      cases t with
      | none => simpa [dht_echoes, dht_records, read_dht11_step] using ih
      | some tv =>
        cases h with
        | none => simpa [dht_echoes, dht_records, read_dht11_step] using ih
        | some hv => simpa [dht_echoes, dht_records, read_dht11_step] using ih

/-- C3 counterexample: the canonical type tokens of this code base are
`"Série JSON"` and `"GPIO JSON"`, not `"SERIAL"` / `"SENSOR"`: the record
the serial reader stores for a parsed line carries type `"Série JSON"`, and
a row whose type is `"SERIAL"` is matched by neither branch of the query's
partition (it contributes to no series). -/
theorem type_token_counterexample :
    read_serial_step ⟨"1", true⟩ = some ⟨"Série JSON", .serialLine "1"⟩ ∧
    "Série JSON" ≠ "SERIAL" ∧ "Série JSON" ≠ "SENSOR" ∧
    (parseRows 0 [⟨0, "SERIAL", [("x", .num 1)]⟩]).serial_times = [] ∧
    (parseRows 0 [⟨0, "SERIAL", [("x", .num 1)]⟩]).gpio_times = [] := by
  refine ⟨by simp [read_serial_step], by decide, by decide, ?_, ?_⟩ <;>
    simp [parseRows]

/-- C3 amended: every record written by the serial reader has type
`"Série JSON"`, every record written by the sensor reader has type
`"GPIO JSON"`, and exactly these two tokens are what the query partitions
on (a row of any other type contributes to no series). -/
theorem store_type_tokens :
    (∀ (l : SerialLine) (r : StoredRecord),
        read_serial_step l = some r → r.rtype = "Série JSON") ∧
    (∀ (d : DhtRead) (r : StoredRecord) (e : Option ℚ),
        read_dht11_step d = (some r, e) → r.rtype = "GPIO JSON") ∧
    (∀ (start : ℚ) (rows : List Row),
        (parseRows start rows).serial_times =
          (rows.filter (fun r => r.rtype = "Série JSON")).map (fun r => r.time - start) ∧
        (parseRows start rows).gpio_times =
          (rows.filter (fun r => r.rtype = "GPIO JSON")).map (fun r => r.time - start)) ∧
    (∀ (start : ℚ) (r : Row), r.rtype ≠ "Série JSON" → r.rtype ≠ "GPIO JSON" →
        parseRows start [r] = parseRows start []) := by
  refine ⟨?_, ?_, ?_, ?_⟩
  · intro l r h
    unfold read_serial_step at h
    split at h
    · exact absurd h (by simp)
    · split at h
      · cases h
        rfl
      · exact absurd h (by simp)
  · intro d r e h
    cases d with
    | fail => exact absurd h (by simp [read_dht11_step])
    | ok t hum =>
      cases t with
      | none => exact absurd h (by simp [read_dht11_step])
      | some tv =>
        cases hum with
        | none => exact absurd h (by simp [read_dht11_step])
        | some hv =>
          rw [read_dht11_step] at h
          cases h
          rfl
  · intro start rows
    exact ⟨rfl, rfl⟩
  · intro start r h1 h2
    simp [parseRows, h1, h2, numericKeys]

/-- Witness for `store_type_tokens` at concrete inputs. -/
theorem store_type_tokens_witness :
    (⟨"Série JSON", .serialLine "1"⟩ : StoredRecord).rtype = "Série JSON" ∧
    (⟨"GPIO JSON", .gpio (round2 25) (round2 50)⟩ : StoredRecord).rtype = "GPIO JSON" ∧
    parseRows 0 [⟨0, "unknown", []⟩] = parseRows 0 [] := by
  refine ⟨?_, ?_, ?_⟩
  · exact store_type_tokens.1 ⟨"1", true⟩ _ (by simp [read_serial_step])
  · exact store_type_tokens.2.1 (.ok (some 25) (some 50)) _ (some (round1 25)) rfl
  · exact store_type_tokens.2.2.2 0 ⟨0, "unknown", []⟩ (by decide) (by decide)

/-- C2 counterexample: after a store failure the query does return the
explicit absence `none`, but the controller does **not** render the
"no data available" state — `on_worker_state_changed` leaves the previous
data, hash and display untouched, so the previous plot stays on screen. -/
theorem no_data_render_counterexample :
    read_logs_from_db 0 (.error "database is locked") = none ∧
    (on_worker_state_changed
        ⟨some ⟨[0], [("niveau_utile", [some 1])], [], []⟩,
         some ⟨[0], [("niveau_utile", [some 1])], [], []⟩,
         true,
         some (some ⟨[0], [("niveau_utile", [some 1])], [], []⟩),
         1⟩
        (.success none)).displayed =
      some (some ⟨[0], [("niveau_utile", [some 1])], [], []⟩) ∧
    rendersNoData (some ⟨[0], [("niveau_utile", [some 1])], [], []⟩) = false := by
  refine ⟨rfl, ?_, ?_⟩
  · simp [on_worker_state_changed]
  · simp [rendersNoData]

/-- C2 amended: a store failure makes the query return the explicit
absence `none` (never an exception), and on that completion the controller
does not retry (the worker slot is simply cleared) and keeps the previous
plot: data, fingerprint and display are all unchanged.  The
"no data available" state is shown only when a render actually happens
with no data present. -/
theorem query_failure_keeps_previous_view (s : CtrlState) (h : s.workerRunning) :
    (∀ (start : ℚ) (e : String), read_logs_from_db start (.error e) = none) ∧
    (on_worker_state_changed s (.success none)).displayed = s.displayed ∧
    (on_worker_state_changed s (.success none)).parsedData = s.parsedData ∧
    (on_worker_state_changed s (.success none)).dataHash = s.dataHash ∧
    (on_worker_state_changed s (.success none)).workerRunning = false ∧
    rendersNoData none = true := by
  refine ⟨fun _ _ => rfl, ?_, ?_, ?_, ?_, rfl⟩ <;>
    simp [on_worker_state_changed, h]

/-- Witness for `query_failure_keeps_previous_view` at a concrete state. -/
theorem query_failure_keeps_previous_view_witness :
    (on_worker_state_changed ⟨none, none, true, none, 1⟩ (.success none)).displayed = none := by
  exact (query_failure_keeps_previous_view ⟨none, none, true, none, 1⟩ rfl).2.1

/-- C9: a query cycle that ends in a store failure (worker success with
result `None`) leaves `last_fingerprint` (and the stored data) unchanged —
whether or not a worker was outstanding — while a successful cycle always
stores the fingerprint of its (possibly empty) result; the failure itself
is never fingerprinted, and no successful fingerprint equals the absent
one. -/
theorem failed_query_preserves_fingerprint (s : CtrlState) :
    ((on_worker_state_changed s (.success none)).dataHash = s.dataHash ∧
     (on_worker_state_changed s (.success none)).parsedData = s.parsedData) ∧
    (∀ d : ParsedData, s.workerRunning →
        (on_worker_state_changed s (.success (some d))).dataHash = some d) ∧
    (∀ d : ParsedData, (some d : Option ParsedData) ≠ none) := by
  refine ⟨⟨?_, ?_⟩, ?_, fun d => by simp⟩
  · by_cases h : s.workerRunning <;> simp [on_worker_state_changed, h]
  · by_cases h : s.workerRunning <;> simp [on_worker_state_changed, h]
  · intro d h
    simp [on_worker_state_changed, h]

/-- Witness for `failed_query_preserves_fingerprint` at a concrete state. -/
theorem failed_query_preserves_fingerprint_witness :
    (on_worker_state_changed ⟨none, none, true, none, 1⟩
        (.success (some ⟨[], [], [], []⟩))).dataHash = some ⟨[], [], [], []⟩ := by
  exact (failed_query_preserves_fingerprint ⟨none, none, true, none, 1⟩).2.1 ⟨[], [], [], []⟩ rfl

/-- Helper: from any state whose ghost in-flight counter matches its worker
flag, every event sequence preserves that correspondence. -/
theorem ctrl_step_inflight_invariant (es : List CtrlEv) (s : CtrlState)
    (h : s.inflight = if s.workerRunning then 1 else 0) :
    (es.foldl ctrl_step s).inflight =
      if (es.foldl ctrl_step s).workerRunning then 1 else 0 := by
  induction es generalizing s with
  | nil => simpa using h
  | cons e es ih =>
    refine ih (ctrl_step s e) ?_
    cases e with
    | launch =>
      by_cases hw : s.workerRunning <;>
        simp [ctrl_step, run_worker_safely, hw] at h ⊢ <;> omega
    | worker we =>
      by_cases hw : s.workerRunning
      · cases we with
        | success r =>
          cases r <;> simp [ctrl_step, on_worker_state_changed, hw] at h ⊢ <;> omega
        | error =>
          simp [ctrl_step, on_worker_state_changed, hw] at h ⊢
          omega
      · simp [ctrl_step, on_worker_state_changed, hw] at h ⊢
        omega

/-- C8: at most one query is in flight at any point of the controller's
execution (from startup, along any event sequence); a launch request while
a worker is outstanding is a no-op leaving the state — hence the
outstanding query — untouched; and the outstanding query's result is still
stored when its completion arrives. -/
theorem single_flight_query_dispatch :
    (∀ es : List CtrlEv, (ctrl_run es).inflight ≤ 1) ∧
    (∀ s : CtrlState, s.workerRunning → ctrl_step s .launch = s) ∧
    (∀ (s : CtrlState) (d : ParsedData), s.workerRunning →
        (ctrl_step s (.worker (.success (some d)))).parsedData = some d ∧
        (ctrl_step s (.worker (.success (some d)))).workerRunning = false) := by
  refine ⟨?_, ?_, ?_⟩
  · intro es
    have h := ctrl_step_inflight_invariant es ctrl_init (by simp [ctrl_init])
    rw [ctrl_run, h]
    by_cases hw : (es.foldl ctrl_step ctrl_init).workerRunning <;> simp [hw]
  · intro s h
    simp [ctrl_step, run_worker_safely, h]
  · intro s d h
    constructor <;> simp [ctrl_step, on_worker_state_changed, h]

/-- Witness for `single_flight_query_dispatch` at concrete inputs. -/
theorem single_flight_query_dispatch_witness :
    (ctrl_run [.launch, .launch]).inflight ≤ 1 ∧
    ctrl_step ⟨none, none, true, none, 1⟩ .launch = ⟨none, none, true, none, 1⟩ ∧
    (ctrl_step ⟨none, none, true, none, 1⟩
        (.worker (.success (some ⟨[], [], [], []⟩)))).parsedData = some ⟨[], [], [], []⟩ := by
  refine ⟨single_flight_query_dispatch.1 [.launch, .launch], ?_, ?_⟩
  · exact single_flight_query_dispatch.2.1 ⟨none, none, true, none, 1⟩ rfl
  · exact (single_flight_query_dispatch.2.2 ⟨none, none, true, none, 1⟩ ⟨[], [], [], []⟩ rfl).1

/-- C1: the aggregation engine has a median path (from the source) and a
mean path (modelled from the spec for the view generations outside `src/`);
the two paths share the same binning — every bucket has both a median and a
mean aggregation — and they are genuinely distinct reducers: on a concrete
bucket their results differ, so neither can be silently substituted for the
other. -/
theorem aggregation_median_and_mean :
    (∀ (times : List ℚ) (values : List (Option ℚ)) (w : ℚ) (pw : ℕ),
        (aggregate_data_median times values w pw).1 =
          (aggregate_data_mean times values w pw).1) ∧
    (∃ (times : List ℚ) (values : List (Option ℚ)) (w : ℚ) (pw : ℕ),
        (aggregate_data_median times values w pw).2 ≠
          (aggregate_data_mean times values w pw).2) := by
  constructor
  · intro times values w pw
    unfold aggregate_data_median aggregate_data_mean
    by_cases h : times = [] ∨ values = [] ∨ pw = 0 <;> simp [h]
  · refine ⟨[0, 1, 2], [some 10, some 20, some 40], 10, 1, ?_⟩
    have hb0 : binIndex (10:ℚ) 0 = 0 := by norm_num [binIndex, pytrunc]
    have hb1 : binIndex (10:ℚ) 1 = 0 := by norm_num [binIndex, pytrunc]
    have hb2 : binIndex (10:ℚ) 2 = 0 := by norm_num [binIndex, pytrunc]
    have hi : sortedBinIndices [((0:ℚ), some (10:ℚ)), (1, some 20), (2, some 40)] 10 = [0] := by
      simp [sortedBinIndices, binnedIndices, hb0, hb1, hb2, List.insertionSort,
        List.orderedInsert, List.dedup, List.pwFilter]
    have hv : binValues [((0:ℚ), some (10:ℚ)), (1, some 20), (2, some 40)] 10 0 = [10, 20, 40] := by
      simp [binValues, hb0, hb1, hb2]
    have hmed : medianOfBin [10, 20, 40] = 20 := by
      norm_num [medianOfBin, List.insertionSort, List.orderedInsert]
    have hmean : meanOfBin [10, 20, 40] = 70 / 3 := by
      norm_num [meanOfBin]
    simp [aggregate_data_median, aggregate_data_mean, hi, hv, hmed, hmean]
    norm_num

/-- C6: the median reducer sorts the bucket's values and returns the middle
value for an odd count, the average of the two middle values for an even
count (stated against any sorted permutation of the bucket); in particular
`[10, 20]` reduces to 15 and `[10, 20, 30]` reduces to 20. -/
theorem median_reducer_policy :
    (∀ (l s : List ℚ), l ≠ [] → l.Perm s → s.Sorted (· ≤ ·) →
        medianOfBin l =
          if l.length % 2 = 0 then
            (s.getD (l.length / 2 - 1) 0 + s.getD (l.length / 2) 0) / 2
          else s.getD (l.length / 2) 0) ∧
    medianOfBin [10, 20] = 15 ∧ medianOfBin [10, 20, 30] = 20 := by
  refine ⟨?_, ?_, ?_⟩
  · intro l s hne hp hs
    have hsort : List.insertionSort (· ≤ ·) l = s :=
      List.eq_of_perm_of_sorted ((List.perm_insertionSort _ l).trans hp)
        (List.sorted_insertionSort _ l) hs
    have hlen : (List.insertionSort (· ≤ ·) l).length = l.length :=
      List.length_insertionSort _ l
    rw [hsort] at hlen
    simp only [medianOfBin, hsort, hlen]
  · norm_num [medianOfBin, List.insertionSort, List.orderedInsert]
  · norm_num [medianOfBin, List.insertionSort, List.orderedInsert]

/-- Witness for `median_reducer_policy` at a concrete unsorted bucket. -/
theorem median_reducer_policy_witness : medianOfBin [30, 10] = 20 := by
  have h := median_reducer_policy.1 [30, 10] [10, 30] (by decide) (by decide) (by decide)
  norm_num [List.getD] at h
  exact h

/-- Helper: membership in the sorted bin-index list — an index is emitted
iff some point with a present value falls in that bin. -/
theorem mem_sortedBinIndices (pts : List (ℚ × Option ℚ)) (cell : ℚ) (i : ℤ) :
    i ∈ sortedBinIndices pts cell ↔
      ∃ p ∈ pts, p.2.isSome ∧ binIndex cell p.1 = i := by
  simp only [sortedBinIndices, List.mem_insertionSort, binnedIndices, List.mem_dedup,
    List.mem_filterMap, Option.map_eq_some']
  constructor
  · rintro ⟨p, hp, v, hv, hbi⟩
    exact ⟨p, hp, by simp [hv], hbi⟩
  · rintro ⟨p, hp, hv, hbi⟩
    obtain ⟨v, hv2⟩ := Option.isSome_iff_exists.mp hv
    exact ⟨p, hp, v, hv2, hbi⟩

/-- Helper: the emitted bucket start positions are strictly increasing
whenever the cell width is positive. -/
theorem sortedBinIndices_strict_chain (pts : List (ℚ × Option ℚ)) (cell : ℚ) (hc : 0 < cell) :
    List.Chain' (· < ·) ((sortedBinIndices pts cell).map (fun i : ℤ => (i : ℚ) * cell)) := by
  have hs : List.Sorted (· ≤ ·) (sortedBinIndices pts cell) :=
    List.sorted_insertionSort _ _
  have hn : (sortedBinIndices pts cell).Nodup :=
    ((List.perm_insertionSort _ _).nodup_iff).mpr (List.nodup_dedup _)
  have hlt : List.Sorted (· < ·) (sortedBinIndices pts cell) := hs.lt_of_le hn
  refine List.Pairwise.chain' ?_
  refine List.Pairwise.map _ ?_ hlt
  intro a b hab
  exact mul_lt_mul_of_pos_right (by exact_mod_cast hab) hc

/-- Helper: dropping the absent-valued points changes no bin's index set. -/
theorem sortedBinIndices_filter (pts : List (ℚ × Option ℚ)) (cell : ℚ) :
    sortedBinIndices (pts.filter (fun p => p.2.isSome)) cell = sortedBinIndices pts cell := by
  unfold sortedBinIndices binnedIndices
  congr 2
  induction pts with
  | nil => rfl
  | cons p ps ih =>
    cases hv : p.2 <;> simp [List.filter_cons, hv, ih]

/-- Helper: dropping the absent-valued points changes no bin's values. -/
theorem binValues_filter (pts : List (ℚ × Option ℚ)) (cell : ℚ) (i : ℤ) :
    binValues (pts.filter (fun p => p.2.isSome)) cell i = binValues pts cell i := by
  unfold binValues
  induction pts with
  | nil => rfl
  | cons p ps ih =>
    cases hv : p.2 with
    | none => simp [List.filter_cons, hv, ih]
    | some v =>
      by_cases hbi : binIndex cell p.1 = i <;>
        simp [List.filter_cons, hv, hbi, ih]

/-- C10 amended: for every input with a positive window (the view state's
invariant `window_seconds > 0`), the median aggregation returns two lists of
equal length (one bucket start per reduced value), the bucket start times
are strictly increasing, and points whose value is absent are skipped — they
contribute to no bucket's index set and to no bucket's values. -/
theorem median_aggregation_invariants (times : List ℚ) (values : List (Option ℚ))
    (w : ℚ) (pw : ℕ) (hw : 0 < w) :
    (aggregate_data_median times values w pw).1.length =
      (aggregate_data_median times values w pw).2.length ∧
    List.Chain' (· < ·) (aggregate_data_median times values w pw).1 ∧
    (∀ (pts : List (ℚ × Option ℚ)) (cell : ℚ) (i : ℤ),
        sortedBinIndices (pts.filter (fun p => p.2.isSome)) cell = sortedBinIndices pts cell ∧
        binValues (pts.filter (fun p => p.2.isSome)) cell i = binValues pts cell i) := by
  refine ⟨?_, ?_, ?_⟩
  · unfold aggregate_data_median
    by_cases h : times = [] ∨ values = [] ∨ pw = 0 <;> simp [h]
  · unfold aggregate_data_median
    by_cases h : times = [] ∨ values = [] ∨ pw = 0
    · simp [h]
    · rw [if_neg h]
      push_neg at h
      have hpw : (0 : ℚ) < pw := by
        exact_mod_cast Nat.pos_of_ne_zero h.2.2
      exact sortedBinIndices_strict_chain _ _ (div_pos hw hpw)
  · intro pts cell i
    exact ⟨sortedBinIndices_filter pts cell, binValues_filter pts cell i⟩

/-- Witness for `median_aggregation_invariants` at a concrete input. -/
theorem median_aggregation_invariants_witness :
    (aggregate_data_median [10] [some 5] 10 1).1.length =
      (aggregate_data_median [10] [some 5] 10 1).2.length :=
  (median_aggregation_invariants [10] [some 5] 10 1 (by norm_num)).1

/-- C10 counterexample to "for every input": with a negative window
(`time_window_seconds = -10`, reachable because the CLI does not validate
`--window`), the emitted bucket starts `[10, 0]` are **de**creasing. -/
theorem median_aggregation_counterexample :
    (aggregate_data_median [1, 11] [some 1, some 2] (-10) 1).1 = [10, 0] ∧
    ¬ List.Chain' (· < ·) (aggregate_data_median [1, 11] [some 1, some 2] (-10) 1).1 := by
  have hb1 : binIndex (-10 : ℚ) 1 = 0 := by
    norm_num [binIndex, pytrunc]
  have hb2 : binIndex (-10 : ℚ) 11 = -1 := by
    norm_num [binIndex, pytrunc]
    rw [Int.ceil_neg]
    norm_num
  have hi : sortedBinIndices [((1:ℚ), some (1:ℚ)), ((11:ℚ), some (2:ℚ))] (-10 : ℚ) = [-1, 0] := by
    simp [sortedBinIndices, binnedIndices, hb1, hb2, List.insertionSort, List.orderedInsert,
      List.dedup, List.pwFilter]
  have h1 : (aggregate_data_median [1, 11] [some 1, some 2] (-10) 1).1 = [10, 0] := by
    simp [aggregate_data_median, hi]
  refine ⟨h1, ?_⟩
  rw [h1]
  intro hch
  simp [List.chain'_cons] at hch
  linarith

/-- C5 amended: for any non-empty points with offsets in `[0, window]` (as
the query's inclusive `BETWEEN` produces) and `display_width ≥ 1`, every
emitted bucket start is an exact multiple of `window/display_width` and lies
within `[0, window]` — the closed right endpoint, reached only by a point at
exactly the window's end, is the one deviation from the claimed half-open
bound — buckets are emitted in ascending order, and every emitted bucket has
a contributing point (empty buckets are omitted entirely). -/
theorem bucket_coverage (times : List ℚ) (values : List (Option ℚ)) (w : ℚ) (pw : ℕ)
    (hpw : 1 ≤ pw) (hw : 0 < w) (hts : ∀ t ∈ times, 0 ≤ t ∧ t ≤ w) :
    (∀ τ ∈ (aggregate_data_median times values w pw).1,
        (∃ i : ℤ, τ = (i : ℚ) * (w / pw)) ∧ 0 ≤ τ ∧ τ ≤ w) ∧
    List.Chain' (· < ·) (aggregate_data_median times values w pw).1 ∧
    (∀ τ ∈ (aggregate_data_median times values w pw).1,
        ∃ p ∈ times.zip values, p.2.isSome ∧ (binIndex (w / pw) p.1 : ℚ) * (w / pw) = τ) := by
  have hpwq : (0 : ℚ) < pw := by
    exact_mod_cast Nat.lt_of_lt_of_le Nat.zero_lt_one hpw
  have hcell : (0 : ℚ) < w / pw := div_pos hw hpwq
  by_cases hguard : times = [] ∨ values = [] ∨ pw = 0
  · refine ⟨?_, ?_, ?_⟩ <;> simp [aggregate_data_median, hguard]
  · have hagg : (aggregate_data_median times values w pw).1 =
        (sortedBinIndices (times.zip values) (w / pw)).map (fun i : ℤ => (i : ℚ) * (w / pw)) := by
      unfold aggregate_data_median
      rw [if_neg hguard]
    refine ⟨?_, ?_, ?_⟩
    · intro τ hτ
      rw [hagg] at hτ
      obtain ⟨i, hi, rfl⟩ := List.mem_map.mp hτ
      obtain ⟨p, hp, hvs, hbi⟩ := (mem_sortedBinIndices _ _ _).mp hi
      have ht : p.1 ∈ times := (List.of_mem_zip hp).1
      obtain ⟨ht0, htw⟩ := hts p.1 ht
      have hfloor : binIndex (w / pw) p.1 = ⌊p.1 / (w / pw)⌋ := by
        unfold binIndex pytrunc
        rw [if_pos (div_nonneg ht0 hcell.le)]
      have hi0 : (0 : ℤ) ≤ i := by
        rw [← hbi, hfloor]
        exact Int.floor_nonneg.mpr (div_nonneg ht0 hcell.le)
      have hile : (i : ℚ) ≤ pw := by
        rw [← hbi, hfloor]
        calc ((⌊p.1 / (w / pw)⌋ : ℤ) : ℚ) ≤ p.1 / (w / pw) := Int.floor_le _
          _ ≤ w / (w / pw) := by gcongr
          _ = pw := by field_simp
      refine ⟨⟨i, rfl⟩, ?_, ?_⟩
      · exact mul_nonneg (by exact_mod_cast hi0) hcell.le
      · calc (i : ℚ) * (w / pw) ≤ (pw : ℚ) * (w / pw) :=
              mul_le_mul_of_nonneg_right hile hcell.le
          _ = w := by field_simp
    · rw [hagg]
      exact sortedBinIndices_strict_chain _ _ hcell
    · intro τ hτ
      rw [hagg] at hτ
      obtain ⟨i, hi, rfl⟩ := List.mem_map.mp hτ
      obtain ⟨p, hp, hvs, hbi⟩ := (mem_sortedBinIndices _ _ _).mp hi
      exact ⟨p, hp, hvs, by rw [hbi]⟩

/-- Witness for `bucket_coverage` at a concrete input. -/
theorem bucket_coverage_witness :
    List.Chain' (· < ·) (aggregate_data_median [10] [some 5] 10 1).1 :=
  (bucket_coverage [10] [some 5] 10 1 (by norm_num) (by norm_num)
    (by intro t ht; simp at ht; simp [ht])).2.1

/-- C5 counterexample to the half-open bound: a point at offset exactly
`window_seconds` (produced by the query's inclusive `BETWEEN` for a record
timestamped at the window's end) lands in the bucket starting at
`window_seconds` itself, which is not inside `[0, window_seconds)`. -/
theorem bucket_coverage_counterexample :
    (aggregate_data_median [10] [some 5] 10 1).1 = [10] ∧
    ¬ (∀ τ ∈ (aggregate_data_median [10] [some 5] 10 1).1, 0 ≤ τ ∧ τ < 10) := by
  have hb : binIndex (10 : ℚ) 10 = 1 := by
    norm_num [binIndex, pytrunc]
  have hi : sortedBinIndices [((10:ℚ), some (5:ℚ))] (10 : ℚ) = [1] := by
    simp [sortedBinIndices, binnedIndices, hb, List.insertionSort, List.orderedInsert]
  have h1 : (aggregate_data_median [10] [some 5] 10 1).1 = [10] := by
    simp [aggregate_data_median, hi]
  refine ⟨h1, ?_⟩
  intro hall
  have h10 : (10 : ℚ) ∈ (aggregate_data_median [10] [some 5] 10 1).1 := by
    rw [h1]
    exact List.mem_singleton.mpr rfl
  have := (hall 10 h10).2
  linarith
